import Mathlib

/-!
Verification development for the GoalVault repository.

The authoritative source is the Solidity contract `GoalVault` (shipped next to
`src/deploy/deploy_goalvault.ts`) and the client-side cipher in
`src/frontend/utils/crypto.ts`.  The contract is embedded as an explicit
state-passing semantics: the FHE engine (Zama fhevm) is external to the
repository and is modelled as an opaque oracle (a proof-acceptance predicate
plus a fresh-handle counter and an access-control list recording the
`FHE.allowThis` / `FHE.allow` grants).  Solidity's revert-rollback is NOT baked
into the embedding: every operation threads its mutations in source order and,
on an error exit, returns the state reached so far — so "no partial state is
committed on error" is a genuine theorem about check/mutation ordering, not a
construction artifact.
-/

namespace GoalVault

/-- A principal identifier (an EVM address, `msg.sender`). -/
abbrev Principal := String

/-- The store's own principal, `address(this)` of the GoalVault contract. -/
def addressThis : Principal := "0xGoalVaultContract"

/-- Error taxonomy of the store, as named by the specification.  In the
contract these surface as `require` revert reasons ("Goal does not exist",
"Not goal owner", "Goal already completed") and as the revert of
`FHE.fromExternal` on a bad input proof. -/
inductive VaultError where
  | NotFound
  | Unauthorized
  | AlreadyCompleted
  | InvalidProof
deriving DecidableEq, Repr

/-- The `Goal` struct of the contract.  FHE handles (`euint8`/`euint64`) are
opaque references managed by the external oracle; they are modelled as natural
numbers issued by a fresh-handle counter. -/
structure Goal where
  owner : Principal
  title : String
  encryptedDescription : List Nat
  encryptedDeadline : Nat
  encryptedPriority : Nat
  encryptedProgress : Nat
  encryptedCompletedAt : Nat
  isCompleted : Bool
  createdAt : Nat
deriving DecidableEq, Repr, Inhabited

/-- The external FHE oracle's proof checker: whether
`FHE.fromExternal(handle, proof)` accepts a given external handle / input
proof pair, for the 8-bit and the 64-bit domain. -/
structure Oracle where
  accepts8 : Nat → List Nat → Bool
  accepts64 : Nat → List Nat → Bool

/-- Contract storage (`_goals`, `_goalsOf`) together with the slice of the
external oracle's state the contract interacts with: the fresh-handle counter
and the access-control list of `(handle, principal)` decryption grants. -/
structure VaultState where
  goals : List Goal
  goalsOf : Principal → List Nat
  nextHandle : Nat
  acl : List (Nat × Principal)

/-- The freshly deployed contract: no goals, empty ownership index, no
handles issued, no grants. -/
def VaultState.empty : VaultState :=
  { goals := [], goalsOf := fun _ => [], nextHandle := 0, acl := [] }

/-- Record lookup `_goals[id]` (guarded by a bounds check at every use). -/
def goalAt (s : VaultState) (id : Nat) : Goal :=
  s.goals.getD id default

/-- Oracle grant `FHE.allow(handle, p)`: append a decryption grant. -/
def allow (s : VaultState) (h : Nat) (p : Principal) : VaultState :=
  { s with acl := s.acl ++ [(h, p)] }

/-- Oracle grant `FHE.allowThis(handle)`: grant to the contract itself. -/
def allowThis (s : VaultState) (h : Nat) : VaultState :=
  allow s h addressThis

/-- Oracle call `FHE.fromExternal(externalEuint64, proof)`: verify the input
proof; on success import the value as a fresh internal handle, else revert
with `InvalidProof`. -/
def fromExternal64 (O : Oracle) (s : VaultState) (ext : Nat) (proof : List Nat) :
    Except VaultError (Nat × VaultState) :=
  if O.accepts64 ext proof then
    .ok (s.nextHandle, { s with nextHandle := s.nextHandle + 1 })
  else
    .error .InvalidProof

/-- Oracle call `FHE.fromExternal(externalEuint8, proof)`, 8-bit domain. -/
def fromExternal8 (O : Oracle) (s : VaultState) (ext : Nat) (proof : List Nat) :
    Except VaultError (Nat × VaultState) :=
  if O.accepts8 ext proof then
    .ok (s.nextHandle, { s with nextHandle := s.nextHandle + 1 })
  else
    .error .InvalidProof

/-- Oracle call `FHE.asEuint8(0)` / `FHE.asEuint64(0)`: trivially encrypt the
constant zero, producing a fresh handle (never fails). -/
def trivialEncrypt (s : VaultState) : Nat × VaultState :=
  (s.nextHandle, { s with nextHandle := s.nextHandle + 1 })

/-- The contract function `createGoal`, in source order: verify the deadline
proof, verify the priority proof, trivially encrypt the two zero fields, build
the record, push it onto `_goals`, append its id to `_goalsOf[msg.sender]`,
then issue the eight ACL grants (contract + caller, for each of the four
handles).  `now` stands for `block.timestamp`. -/
def createGoal (O : Oracle) (s : VaultState) (caller : Principal)
    (title : String) (encryptedDescription : List Nat)
    (encryptedDeadline encryptedPriority : Nat)
    (deadlineProof priorityProof : List Nat) (now : Nat) :
    VaultState × Except VaultError Nat :=
  match fromExternal64 O s encryptedDeadline deadlineProof with
  | .error e => (s, .error e)
  | .ok (deadline, s1) =>
    match fromExternal8 O s1 encryptedPriority priorityProof with
    | .error e => (s1, .error e)
    | .ok (priority, s2) =>
      let (zeroProgress, s3) := trivialEncrypt s2
      let (zeroTimestamp, s4) := trivialEncrypt s3
      let goal : Goal :=
        { owner := caller, title := title,
          encryptedDescription := encryptedDescription,
          encryptedDeadline := deadline, encryptedPriority := priority,
          encryptedProgress := zeroProgress,
          encryptedCompletedAt := zeroTimestamp,
          isCompleted := false, createdAt := now }
      let s5 := { s4 with goals := s4.goals ++ [goal] }
      let id := s5.goals.length - 1
      let s6 := { s5 with goalsOf := fun p =>
        if p = caller then s5.goalsOf p ++ [id] else s5.goalsOf p }
      let s7 := allow (allowThis s6 deadline) deadline caller
      let s8 := allow (allowThis s7 priority) priority caller
      let s9 := allow (allowThis s8 zeroProgress) zeroProgress caller
      let s10 := allow (allowThis s9 zeroTimestamp) zeroTimestamp caller
      (s10, .ok id)

/-- The contract function `updateProgress`.  The modifiers run first, in
declaration order: `onlyGoalOwner(id)` (existence, then ownership) then
`goalNotCompleted(id)`; only then does the body verify the progress proof,
replace `encryptedProgress`, and re-issue the two ACL grants. -/
def updateProgress (O : Oracle) (s : VaultState) (caller : Principal)
    (id : Nat) (encryptedProgress : Nat) (progressProof : List Nat) :
    VaultState × Option VaultError :=
  if id < s.goals.length then
    if (goalAt s id).owner = caller then
      if (goalAt s id).isCompleted then
        (s, some .AlreadyCompleted)
      else
        match fromExternal8 O s encryptedProgress progressProof with
        | .error _ => (s, some .InvalidProof)
        | .ok (progress, s1) =>
          let g := { (goalAt s1 id) with encryptedProgress := progress }
          let s2 := { s1 with goals := s1.goals.set id g }
          let s3 := allow (allowThis s2 progress) progress caller
          (s3, none)
    else (s, some .Unauthorized)
  else (s, some .NotFound)

/-- The contract function `completeGoal`.  Same modifier chain as
`updateProgress`; the body verifies the completedAt proof, replaces
`encryptedCompletedAt`, sets `isCompleted := true`, and re-issues the two ACL
grants. -/
def completeGoal (O : Oracle) (s : VaultState) (caller : Principal)
    (id : Nat) (encryptedCompletedAt : Nat) (completedAtProof : List Nat) :
    VaultState × Option VaultError :=
  if id < s.goals.length then
    if (goalAt s id).owner = caller then
      if (goalAt s id).isCompleted then
        (s, some .AlreadyCompleted)
      else
        match fromExternal64 O s encryptedCompletedAt completedAtProof with
        | .error _ => (s, some .InvalidProof)
        | .ok (completedAt, s1) =>
          let g := { (goalAt s1 id) with
            encryptedCompletedAt := completedAt, isCompleted := true }
          let s2 := { s1 with goals := s1.goals.set id g }
          let s3 := allow (allowThis s2 completedAt) completedAt caller
          (s3, none)
    else (s, some .Unauthorized)
  else (s, some .NotFound)

/-- View `getGoalCountByOwner(owner)`. -/
def getGoalCountByOwner (s : VaultState) (owner : Principal) : Nat :=
  (s.goalsOf owner).length

/-- View `getGoalIdsByOwner(owner)`. -/
def getGoalIdsByOwner (s : VaultState) (owner : Principal) : List Nat :=
  s.goalsOf owner

/-- View `getGoalMeta(id)`: dereferences `_goals[id]`, so an out-of-range id
reverts; the specification files this revert under `NotFound`. -/
def getGoalMeta (s : VaultState) (id : Nat) :
    Except VaultError (Principal × String × Nat × Bool) :=
  if id < s.goals.length then
    .ok ((goalAt s id).owner, (goalAt s id).title,
         (goalAt s id).createdAt, (goalAt s id).isCompleted)
  else .error .NotFound

/-- View `getEncryptedDescription(id)`. -/
def getEncryptedDescription (s : VaultState) (id : Nat) :
    Except VaultError (List Nat) :=
  if id < s.goals.length then .ok (goalAt s id).encryptedDescription
  else .error .NotFound

/-- View `getEncryptedDeadline(id)`. -/
def getEncryptedDeadline (s : VaultState) (id : Nat) : Except VaultError Nat :=
  if id < s.goals.length then .ok (goalAt s id).encryptedDeadline
  else .error .NotFound

/-- View `getEncryptedPriority(id)`. -/
def getEncryptedPriority (s : VaultState) (id : Nat) : Except VaultError Nat :=
  if id < s.goals.length then .ok (goalAt s id).encryptedPriority
  else .error .NotFound

/-- View `getEncryptedProgress(id)`. -/
def getEncryptedProgress (s : VaultState) (id : Nat) : Except VaultError Nat :=
  if id < s.goals.length then .ok (goalAt s id).encryptedProgress
  else .error .NotFound

/-- View `getEncryptedCompletedAt(id)`. -/
def getEncryptedCompletedAt (s : VaultState) (id : Nat) :
    Except VaultError Nat :=
  if id < s.goals.length then .ok (goalAt s id).encryptedCompletedAt
  else .error .NotFound

/-- View `getTotalGoals()`. -/
def getTotalGoals (s : VaultState) : Nat :=
  s.goals.length

/-- View `goalExists(id)`. -/
def goalExists (s : VaultState) (id : Nat) : Bool :=
  id < s.goals.length

/-- One externally submitted transaction against the store. -/
inductive Op where
  | create (caller : Principal) (title : String) (desc : List Nat)
      (extDeadline extPriority : Nat)
      (deadlineProof priorityProof : List Nat) (now : Nat)
  | update (caller : Principal) (id : Nat) (extProgress : Nat)
      (progressProof : List Nat)
  | complete (caller : Principal) (id : Nat) (extCompletedAt : Nat)
      (completedAtProof : List Nat)

/-- Execute one transaction, returning the post-state and the error outcome
(`none` on success). -/
def step (O : Oracle) (s : VaultState) : Op → VaultState × Option VaultError
  | .create c t d ed ep dp pp now =>
    match createGoal O s c t d ed ep dp pp now with
    | (s', .ok _) => (s', none)
    | (s', .error e) => (s', some e)
  | .update c id e p => updateProgress O s c id e p
  | .complete c id e p => completeGoal O s c id e p

/-- Execute a whole sequence of transactions. -/
def run (O : Oracle) (s : VaultState) : List Op → VaultState
  | [] => s
  | op :: ops => run O (step O s op).1 ops

/-- The ids handed out by the successful `createGoal` calls of a sequence,
in execution order. -/
def createdIds (O : Oracle) (s : VaultState) : List Op → List Nat
  | [] => []
  | .create c t d ed ep dp pp now :: ops =>
    match createGoal O s c t d ed ep dp pp now with
    | (s', .ok id) => id :: createdIds O s' ops
    | (s', .error _) => createdIds O s' ops
  | op :: ops => createdIds O (step O s op).1 ops

/-- An oracle accepting every input proof (a trivial fake oracle, as the
specification's design notes suggest for testing). -/
def allOracle : Oracle :=
  { accepts8 := fun _ _ => true, accepts64 := fun _ _ => true }

/-- An oracle rejecting every input proof. -/
def noOracle : Oracle :=
  { accepts8 := fun _ _ => false, accepts64 := fun _ _ => false }

end GoalVault

namespace Crypto

/-- Error raised by the cipher when authenticated decryption fails. -/
inductive CipherError where
  | DecryptionFailed
deriving DecidableEq, Repr

/-- Modelled from the spec: the `keccak256` hash of the external ethers
library (applied in `deriveKeyFromAddress` to the UTF-8 bytes of the
lowercased address, the digest then being re-read as 32 raw key bytes, a
bijective re-encoding).  The hash is treated as an ideal collision-free
function, so digests are symbolic terms; since UTF-8 encoding of strings is
itself injective, the digest is indexed directly by the lowercased string. -/
inductive Digest where
  | keccak : String → Digest
deriving DecidableEq

/-- JavaScript's `String.prototype.toLowerCase`, modelled as the charwise
ASCII case mapping (hex addresses only exercise ASCII). -/
def toLowerCase (s : String) : String :=
  String.mk (s.data.map Char.toLower)

/-- The source's `deriveKeyFromAddress`: hash the lowercased address and use
the digest bytes as the 32-byte symmetric key. -/
def deriveKeyFromAddress (addr : String) : Digest :=
  Digest.keccak (toLowerCase addr)

/-- Modelled from the spec: the ciphertext blob produced by the browser's
AES-GCM (SubtleCrypto) with a 128-bit tag, hex-encoded with the embedded
nonce (`0x` ‖ nonce ‖ ciphertext ‖ tag).  As an ideal authenticated cipher it
is modelled symbolically: the blob determines (and is determined by) the key,
the embedded nonce and the plaintext, and authenticated decryption succeeds
exactly when the decryption key equals the encryption key, returning the
plaintext (the `TextEncoder`/`TextDecoder` round trip is the identity). -/
structure Blob where
  key : Digest
  nonce : List Nat
  plaintext : String
deriving DecidableEq

/-- The source's `encryptDescription`: derive the key from the address, draw
a fresh 12-byte nonce (here a parameter, since it is random), and produce the
nonce-embedding authenticated blob. -/
def encryptDescription (description : String) (userAddress : String)
    (nonce : List Nat) : Blob :=
  { key := deriveKeyFromAddress userAddress, nonce := nonce,
    plaintext := description }

/-- The source's `decryptDescription`: re-derive the key from the address,
split the blob into nonce and ciphertext, and decrypt with tag
verification — failing when the key does not match the one the blob was
produced under. -/
def decryptDescription (blob : Blob) (userAddress : String) :
    Except CipherError String :=
  if blob.key = deriveKeyFromAddress userAddress then .ok blob.plaintext
  else .error .DecryptionFailed

end Crypto

namespace ByteCipher

/-- UTF-8 encoding of a string (`TextEncoder.encode`), as a list of byte
values. -/
def toUtf8Bytes (s : String) : List Nat :=
  s.toUTF8.toList.map (fun b => b.toNat)

/-- Modelled from the spec: a byte-level stand-in for the 32-byte keccak-256
digest re-read as raw key bytes; only its length and byte range matter for
the properties stated below. -/
def keccakBytes (s : String) : List Nat :=
  (List.range 32).map (fun i => ((toUtf8Bytes s).sum * 31 + i * 17 + 7) % 256)

/-- The source's `deriveKeyFromAddress`, at byte level. -/
def deriveKeyFromAddress (addr : String) : List Nat :=
  keccakBytes (Crypto.toLowerCase addr)

/-- Modelled from the spec: a byte-level stand-in for the AES-GCM keystream
byte at position `i`. -/
def keystreamByte (key nonce : List Nat) (i : Nat) : Nat :=
  (key.sum + nonce.sum * 31 + i * 7 + 13) % 256

/-- Modelled from the spec: the confidentiality half of AES-GCM — the
plaintext masked bytewise with the keystream (same length as the
plaintext). -/
def gcmBody (key nonce pt : List Nat) : List Nat :=
  List.zipWith (fun b i => b ^^^ keystreamByte key nonce i) pt
    (List.range pt.length)

/-- Modelled from the spec: the 128-bit (16-byte) GCM authentication tag
appended to the ciphertext (`tagLength: 128` in the source). -/
def gcmTag (key nonce ct : List Nat) : List Nat :=
  (List.range 16).map (fun i => (key.getD i 0 + nonce.sum + ct.sum + i) % 256)

/-- Modelled from the spec: `crypto.subtle.encrypt` with AES-GCM and a
128-bit tag: the returned byte string is the masked plaintext followed by the
16-byte tag, hence always exactly 16 bytes longer than the plaintext. -/
def aesGcmEncrypt (key nonce pt : List Nat) : List Nat :=
  gcmBody key nonce pt ++ gcmTag key nonce (gcmBody key nonce pt)

/-- The source's `chacha20Encrypt` (which despite its name invokes AES-GCM):
prepend the nonce to the authenticated ciphertext. -/
def chacha20Encrypt (key nonce plaintext : List Nat) : List Nat :=
  nonce ++ aesGcmEncrypt key nonce plaintext

/-- Hex digit character for a value below 16 (the lowercase digits
`0`..`9`, `a`..`f` that JavaScript's `toString(16)` emits). -/
def hexDigit (n : Nat) : Char :=
  Nat.digitChar n

/-- JavaScript's `b.toString(16)` on a byte value: minimal-length lowercase
hex (one digit below 16, two digits otherwise — byte values never exceed
255). -/
def byteToHexNoPad (b : Nat) : List Char :=
  if b < 16 then [hexDigit b] else [hexDigit (b / 16), hexDigit (b % 16)]

/-- The source's per-byte encoder `b.toString(16).padStart(2, '0')`. -/
def byteToHex (b : Nat) : List Char :=
  List.replicate (2 - (byteToHexNoPad b).length) '0' ++ byteToHexNoPad b

/-- Hex-encode a byte list (the source's `.map(...).join('')`). -/
def bytesToHex (bs : List Nat) : List Char :=
  (bs.map byteToHex).flatten

/-- The source's `encryptDescription` at byte level: derive the key, encrypt
under the given fresh 12-byte nonce, and return the `0x`-prefixed hex
encoding of nonce ‖ ciphertext ‖ tag. -/
def encryptDescriptionBlob (description userAddress : String)
    (nonce : List Nat) : String :=
  "0x" ++ String.mk (bytesToHex
    (chacha20Encrypt (deriveKeyFromAddress userAddress) nonce
      (toUtf8Bytes description)))

end ByteCipher

namespace GoalVault

/-- Inversion for a successful 8-bit `FHE.fromExternal`. -/
theorem fromExternal8_ok_inv (O : Oracle) (s : VaultState) (e : Nat)
    (pr : List Nat) (n : Nat) (s1 : VaultState)
    (h : fromExternal8 O s e pr = .ok (n, s1)) :
    n = s.nextHandle ∧ s1 = { s with nextHandle := s.nextHandle + 1 } ∧
      O.accepts8 e pr = true := by
  unfold fromExternal8 at h
  split at h
  · rename_i hacc
    injection h with h
    injection h with h1 h2
    exact ⟨h1.symm, h2.symm, hacc⟩
  · exact absurd h (by simp)

/-- Inversion for a successful 64-bit `FHE.fromExternal`. -/
theorem fromExternal64_ok_inv (O : Oracle) (s : VaultState) (e : Nat)
    (pr : List Nat) (n : Nat) (s1 : VaultState)
    (h : fromExternal64 O s e pr = .ok (n, s1)) :
    n = s.nextHandle ∧ s1 = { s with nextHandle := s.nextHandle + 1 } ∧
      O.accepts64 e pr = true := by
  unfold fromExternal64 at h
  split at h
  · rename_i hacc
    injection h with h
    injection h with h1 h2
    exact ⟨h1.symm, h2.symm, hacc⟩
  · exact absurd h (by simp)

/-- `updateProgress` on an out-of-range id. -/
theorem updateProgress_not_found (O : Oracle) (s : VaultState) (c : Principal)
    (id e : Nat) (pr : List Nat) (h : ¬ id < s.goals.length) :
    updateProgress O s c id e pr = (s, some .NotFound) := by
  simp [updateProgress, h]

/-- `updateProgress` by a non-owner. -/
theorem updateProgress_unauthorized (O : Oracle) (s : VaultState)
    (c : Principal) (id e : Nat) (pr : List Nat)
    (hid : id < s.goals.length) (hown : ¬ (goalAt s id).owner = c) :
    updateProgress O s c id e pr = (s, some .Unauthorized) := by
  simp [updateProgress, hid, hown]

/-- `updateProgress` on a completed goal. -/
theorem updateProgress_already_completed (O : Oracle) (s : VaultState)
    (c : Principal) (id e : Nat) (pr : List Nat)
    (hid : id < s.goals.length) (hown : (goalAt s id).owner = c)
    (hcomp : (goalAt s id).isCompleted = true) :
    updateProgress O s c id e pr = (s, some .AlreadyCompleted) := by
  simp [updateProgress, hid, hown, hcomp]

/-- `updateProgress` with a rejected input proof. -/
theorem updateProgress_bad_proof (O : Oracle) (s : VaultState) (c : Principal)
    (id e : Nat) (pr : List Nat)
    (hid : id < s.goals.length) (hown : (goalAt s id).owner = c)
    (hcomp : (goalAt s id).isCompleted = false)
    (h8 : O.accepts8 e pr = false) :
    updateProgress O s c id e pr = (s, some .InvalidProof) := by
  simp [updateProgress, hid, hown, hcomp, fromExternal8, h8]

/-- Exact effect of a successful `updateProgress`. -/
theorem updateProgress_accepts (O : Oracle) (s : VaultState) (c : Principal)
    (id e : Nat) (pr : List Nat)
    (hid : id < s.goals.length) (hown : (goalAt s id).owner = c)
    (hcomp : (goalAt s id).isCompleted = false)
    (h8 : O.accepts8 e pr = true) :
    updateProgress O s c id e pr =
      ({ goals := s.goals.set id
            { (goalAt s id) with encryptedProgress := s.nextHandle },
         goalsOf := s.goalsOf, nextHandle := s.nextHandle + 1,
         acl := s.acl ++ [(s.nextHandle, addressThis), (s.nextHandle, c)] },
       none) := by
  simp [goalAt, hid] at hown hcomp
  simp [updateProgress, goalAt, hid, hown, hcomp, fromExternal8, h8, allow,
    allowThis]

/-- `completeGoal` on an out-of-range id. -/
theorem completeGoal_not_found (O : Oracle) (s : VaultState) (c : Principal)
    (id e : Nat) (pr : List Nat) (h : ¬ id < s.goals.length) :
    completeGoal O s c id e pr = (s, some .NotFound) := by
  simp [completeGoal, h]

/-- `completeGoal` by a non-owner. -/
theorem completeGoal_unauthorized (O : Oracle) (s : VaultState)
    (c : Principal) (id e : Nat) (pr : List Nat)
    (hid : id < s.goals.length) (hown : ¬ (goalAt s id).owner = c) :
    completeGoal O s c id e pr = (s, some .Unauthorized) := by
  simp [completeGoal, hid, hown]

/-- `completeGoal` on a completed goal. -/
theorem completeGoal_already_completed (O : Oracle) (s : VaultState)
    (c : Principal) (id e : Nat) (pr : List Nat)
    (hid : id < s.goals.length) (hown : (goalAt s id).owner = c)
    (hcomp : (goalAt s id).isCompleted = true) :
    completeGoal O s c id e pr = (s, some .AlreadyCompleted) := by
  simp [completeGoal, hid, hown, hcomp]

/-- `completeGoal` with a rejected input proof. -/
theorem completeGoal_bad_proof (O : Oracle) (s : VaultState) (c : Principal)
    (id e : Nat) (pr : List Nat)
    (hid : id < s.goals.length) (hown : (goalAt s id).owner = c)
    (hcomp : (goalAt s id).isCompleted = false)
    (h64 : O.accepts64 e pr = false) :
    completeGoal O s c id e pr = (s, some .InvalidProof) := by
  simp [completeGoal, hid, hown, hcomp, fromExternal64, h64]

/-- Exact effect of a successful `completeGoal`. -/
theorem completeGoal_accepts (O : Oracle) (s : VaultState) (c : Principal)
    (id e : Nat) (pr : List Nat)
    (hid : id < s.goals.length) (hown : (goalAt s id).owner = c)
    (hcomp : (goalAt s id).isCompleted = false)
    (h64 : O.accepts64 e pr = true) :
    completeGoal O s c id e pr =
      ({ goals := s.goals.set id
            { (goalAt s id) with encryptedCompletedAt := s.nextHandle,
                                 isCompleted := true },
         goalsOf := s.goalsOf, nextHandle := s.nextHandle + 1,
         acl := s.acl ++ [(s.nextHandle, addressThis), (s.nextHandle, c)] },
       none) := by
  simp [goalAt, hid] at hown hcomp
  simp [completeGoal, goalAt, hid, hown, hcomp, fromExternal64, h64, allow,
    allowThis]

/-- `createGoal` with a rejected deadline proof. -/
theorem createGoal_deadline_rejected (O : Oracle) (s : VaultState)
    (c : Principal) (t : String) (d : List Nat) (ed ep : Nat)
    (dp pp : List Nat) (now : Nat) (h64 : O.accepts64 ed dp = false) :
    createGoal O s c t d ed ep dp pp now = (s, .error .InvalidProof) := by
  simp [createGoal, fromExternal64, h64]

/-- `createGoal` with an accepted deadline proof but rejected priority
proof: the only mutation reached is the oracle's handle counter. -/
theorem createGoal_priority_rejected (O : Oracle) (s : VaultState)
    (c : Principal) (t : String) (d : List Nat) (ed ep : Nat)
    (dp pp : List Nat) (now : Nat) (h64 : O.accepts64 ed dp = true)
    (h8 : O.accepts8 ep pp = false) :
    createGoal O s c t d ed ep dp pp now =
      ({ s with nextHandle := s.nextHandle + 1 }, .error .InvalidProof) := by
  simp [createGoal, fromExternal64, fromExternal8, h64, h8]

/-- Exact effect of a successful `createGoal`. -/
theorem createGoal_accepts (O : Oracle) (s : VaultState) (c : Principal)
    (t : String) (d : List Nat) (ed ep : Nat) (dp pp : List Nat) (now : Nat)
    (h64 : O.accepts64 ed dp = true) (h8 : O.accepts8 ep pp = true) :
    createGoal O s c t d ed ep dp pp now =
      ({ goals := s.goals ++
            [{ owner := c, title := t, encryptedDescription := d,
               encryptedDeadline := s.nextHandle,
               encryptedPriority := s.nextHandle + 1,
               encryptedProgress := s.nextHandle + 2,
               encryptedCompletedAt := s.nextHandle + 3,
               isCompleted := false, createdAt := now }],
         goalsOf := fun p =>
           if p = c then s.goalsOf p ++ [s.goals.length] else s.goalsOf p,
         nextHandle := s.nextHandle + 4,
         acl := s.acl ++
           [(s.nextHandle, addressThis), (s.nextHandle, c),
            (s.nextHandle + 1, addressThis), (s.nextHandle + 1, c),
            (s.nextHandle + 2, addressThis), (s.nextHandle + 2, c),
            (s.nextHandle + 3, addressThis), (s.nextHandle + 3, c)] },
       .ok s.goals.length) := by
  simp [createGoal, fromExternal64, fromExternal8, trivialEncrypt, h64, h8,
    allow, allowThis]

end GoalVault

namespace GoalVault

/-- Whenever `updateProgress` reports an error, the returned state is the
input state unchanged. -/
theorem updateProgress_error_state (O : Oracle) (s : VaultState)
    (c : Principal) (id e : Nat) (pr : List Nat) (err : VaultError)
    (h : (updateProgress O s c id e pr).2 = some err) :
    (updateProgress O s c id e pr).1 = s := by
  by_cases hid : id < s.goals.length
  · by_cases hown : (goalAt s id).owner = c
    · cases hcomp : (goalAt s id).isCompleted
      · cases hacc : O.accepts8 e pr
        · rw [updateProgress_bad_proof O s c id e pr hid hown hcomp hacc]
        · rw [updateProgress_accepts O s c id e pr hid hown hcomp hacc] at h
          exact absurd h (by simp)
      · rw [updateProgress_already_completed O s c id e pr hid hown hcomp]
    · rw [updateProgress_unauthorized O s c id e pr hid hown]
  · rw [updateProgress_not_found O s c id e pr hid]

/-- Whenever `completeGoal` reports an error, the returned state is the
input state unchanged. -/
theorem completeGoal_error_state (O : Oracle) (s : VaultState)
    (c : Principal) (id e : Nat) (pr : List Nat) (err : VaultError)
    (h : (completeGoal O s c id e pr).2 = some err) :
    (completeGoal O s c id e pr).1 = s := by
  by_cases hid : id < s.goals.length
  · by_cases hown : (goalAt s id).owner = c
    · cases hcomp : (goalAt s id).isCompleted
      · cases hacc : O.accepts64 e pr
        · rw [completeGoal_bad_proof O s c id e pr hid hown hcomp hacc]
        · rw [completeGoal_accepts O s c id e pr hid hown hcomp hacc] at h
          exact absurd h (by simp)
      · rw [completeGoal_already_completed O s c id e pr hid hown hcomp]
    · rw [completeGoal_unauthorized O s c id e pr hid hown]
  · rw [completeGoal_not_found O s c id e pr hid]

/-- Inversion for a successful `updateProgress`: all four preconditions
held. -/
theorem updateProgress_ok_inv (O : Oracle) (s : VaultState) (c : Principal)
    (id e : Nat) (pr : List Nat)
    (h : (updateProgress O s c id e pr).2 = none) :
    id < s.goals.length ∧ (goalAt s id).owner = c ∧
      (goalAt s id).isCompleted = false ∧ O.accepts8 e pr = true := by
  by_cases hid : id < s.goals.length
  · by_cases hown : (goalAt s id).owner = c
    · cases hcomp : (goalAt s id).isCompleted
      · cases hacc : O.accepts8 e pr
        · rw [updateProgress_bad_proof O s c id e pr hid hown hcomp hacc] at h
          exact absurd h (by simp)
        · exact ⟨hid, hown, rfl, rfl⟩
      · rw [updateProgress_already_completed O s c id e pr hid hown hcomp] at h
        exact absurd h (by simp)
    · rw [updateProgress_unauthorized O s c id e pr hid hown] at h
      exact absurd h (by simp)
  · rw [updateProgress_not_found O s c id e pr hid] at h
    exact absurd h (by simp)

/-- Inversion for a successful `completeGoal`: all four preconditions
held. -/
theorem completeGoal_ok_inv (O : Oracle) (s : VaultState) (c : Principal)
    (id e : Nat) (pr : List Nat)
    (h : (completeGoal O s c id e pr).2 = none) :
    id < s.goals.length ∧ (goalAt s id).owner = c ∧
      (goalAt s id).isCompleted = false ∧ O.accepts64 e pr = true := by
  by_cases hid : id < s.goals.length
  · by_cases hown : (goalAt s id).owner = c
    · cases hcomp : (goalAt s id).isCompleted
      · cases hacc : O.accepts64 e pr
        · rw [completeGoal_bad_proof O s c id e pr hid hown hcomp hacc] at h
          exact absurd h (by simp)
        · exact ⟨hid, hown, rfl, rfl⟩
      · rw [completeGoal_already_completed O s c id e pr hid hown hcomp] at h
        exact absurd h (by simp)
    · rw [completeGoal_unauthorized O s c id e pr hid hown] at h
      exact absurd h (by simp)
  · rw [completeGoal_not_found O s c id e pr hid] at h
    exact absurd h (by simp)

/-- Outcome analysis for `createGoal`: either both proofs verify and a new
record is appended at id `s.goals.length`, or the call fails with
`InvalidProof` leaving the record array and ownership index untouched. -/
theorem createGoal_result (O : Oracle) (s : VaultState) (c : Principal)
    (t : String) (d : List Nat) (ed ep : Nat) (dp pp : List Nat) (now : Nat) :
    (∃ s', createGoal O s c t d ed ep dp pp now = (s', .ok s.goals.length) ∧
        s'.goals.length = s.goals.length + 1) ∨
    (∃ s', createGoal O s c t d ed ep dp pp now = (s', .error .InvalidProof) ∧
        s'.goals = s.goals ∧ s'.goalsOf = s.goalsOf) := by
  cases h64 : O.accepts64 ed dp
  · right
    exact ⟨s, createGoal_deadline_rejected O s c t d ed ep dp pp now h64,
      rfl, rfl⟩
  · cases h8 : O.accepts8 ep pp
    · right
      exact ⟨_, createGoal_priority_rejected O s c t d ed ep dp pp now h64 h8,
        rfl, rfl⟩
    · left
      exact ⟨_, createGoal_accepts O s c t d ed ep dp pp now h64 h8, by simp⟩

end GoalVault

namespace GoalVault

/-- A concrete uncompleted one-goal state (goal 0 owned by alice), used as a
witness input below. -/
def sampleGoal : Goal :=
  { owner := "alice", title := "Learn X", encryptedDescription := [1, 2],
    encryptedDeadline := 0, encryptedPriority := 1, encryptedProgress := 2,
    encryptedCompletedAt := 3, isCompleted := false, createdAt := 100 }

/-- A concrete vault state holding exactly `sampleGoal` at id 0. -/
def sampleState : VaultState :=
  { goals := [sampleGoal],
    goalsOf := fun p => if p = "alice" then [0] else [],
    nextHandle := 4,
    acl := [(0, addressThis), (0, "alice"), (1, addressThis), (1, "alice"),
            (2, addressThis), (2, "alice"), (3, addressThis), (3, "alice")] }

/-- C1: for every call to `updateProgress` or `completeGoal`, the
preconditions are checked in the order existence, ownership,
not-already-completed, proof validity, short-circuiting on the first
failure: an out-of-range id fails with `NotFound`; otherwise a caller other
than the record's owner fails with `Unauthorized`; otherwise a completed
record fails with `AlreadyCompleted`; otherwise a proof rejected by the
oracle fails with `InvalidProof`; otherwise the call succeeds. -/
theorem update_complete_check_order (O : Oracle) (s : VaultState)
    (c : Principal) (id e : Nat) (pr : List Nat) :
    (¬ id < s.goals.length →
      updateProgress O s c id e pr = (s, some .NotFound) ∧
      completeGoal O s c id e pr = (s, some .NotFound)) ∧
    (id < s.goals.length → ¬ (goalAt s id).owner = c →
      updateProgress O s c id e pr = (s, some .Unauthorized) ∧
      completeGoal O s c id e pr = (s, some .Unauthorized)) ∧
    (id < s.goals.length → (goalAt s id).owner = c →
        (goalAt s id).isCompleted = true →
      updateProgress O s c id e pr = (s, some .AlreadyCompleted) ∧
      completeGoal O s c id e pr = (s, some .AlreadyCompleted)) ∧
    (id < s.goals.length → (goalAt s id).owner = c →
        (goalAt s id).isCompleted = false →
      (O.accepts8 e pr = false →
        updateProgress O s c id e pr = (s, some .InvalidProof)) ∧
      (O.accepts64 e pr = false →
        completeGoal O s c id e pr = (s, some .InvalidProof)) ∧
      (O.accepts8 e pr = true → (updateProgress O s c id e pr).2 = none) ∧
      (O.accepts64 e pr = true → (completeGoal O s c id e pr).2 = none)) := by
  refine ⟨fun hid => ⟨updateProgress_not_found O s c id e pr hid,
      completeGoal_not_found O s c id e pr hid⟩,
    fun hid hown => ⟨updateProgress_unauthorized O s c id e pr hid hown,
      completeGoal_unauthorized O s c id e pr hid hown⟩,
    fun hid hown hcomp =>
      ⟨updateProgress_already_completed O s c id e pr hid hown hcomp,
       completeGoal_already_completed O s c id e pr hid hown hcomp⟩,
    fun hid hown hcomp =>
      ⟨fun h8 => updateProgress_bad_proof O s c id e pr hid hown hcomp h8,
       fun h64 => completeGoal_bad_proof O s c id e pr hid hown hcomp h64,
       fun h8 => by rw [updateProgress_accepts O s c id e pr hid hown hcomp h8],
       fun h64 => by
         rw [completeGoal_accepts O s c id e pr hid hown hcomp h64]⟩⟩

/-- Witness for C1: at a concrete one-goal state, with the owner calling and
an all-accepting oracle, both mutating calls succeed. -/
theorem update_complete_check_order_witness :
    (updateProgress allOracle sampleState "alice" 0 7 []).2 = none ∧
    (completeGoal allOracle sampleState "alice" 0 7 []).2 = none := by
  have h := update_complete_check_order allOracle sampleState "alice" 0 7 []
  have h4 := h.2.2.2 (by decide) (by rfl) (by rfl)
  exact ⟨h4.2.2.1 rfl, h4.2.2.2 rfl⟩

/-- C5: every mutating operation is atomic with respect to errors: whenever
an error is raised, the record array and the ownership index are unchanged;
in particular a `createGoal` whose deadline or priority proof the oracle
rejects fails with `InvalidProof` and allocates no record and appends
nothing to the caller's ownership index. -/
theorem mutating_error_atomicity (O : Oracle) (s : VaultState) :
    (∀ op err, (step O s op).2 = some err →
      (step O s op).1.goals = s.goals ∧
      (step O s op).1.goalsOf = s.goalsOf) ∧
    (∀ c t d ed ep dp pp now,
      O.accepts64 ed dp = false ∨ O.accepts8 ep pp = false →
      ∃ s', createGoal O s c t d ed ep dp pp now = (s', .error .InvalidProof) ∧
        s'.goals = s.goals ∧ s'.goalsOf = s.goalsOf) := by
  constructor
  · intro op err herr
    cases op with
    | create c t d ed ep dp pp now =>
      rcases createGoal_result O s c t d ed ep dp pp now with
        ⟨s', hok, _⟩ | ⟨s', herr2, hg, hgo⟩
      · rw [show step O s (Op.create c t d ed ep dp pp now) = (s', none) by
          simp [step, hok]] at herr
        exact absurd herr (by simp)
      · rw [show step O s (Op.create c t d ed ep dp pp now) =
            (s', some .InvalidProof) by simp [step, herr2]]
        exact ⟨hg, hgo⟩
    | update c id e pr =>
      have h1 : (updateProgress O s c id e pr).1 = s :=
        updateProgress_error_state O s c id e pr err herr
      exact ⟨by rw [show (step O s (Op.update c id e pr)).1 =
          (updateProgress O s c id e pr).1 from rfl, h1],
        by rw [show (step O s (Op.update c id e pr)).1 =
          (updateProgress O s c id e pr).1 from rfl, h1]⟩
    | complete c id e pr =>
      have h1 : (completeGoal O s c id e pr).1 = s :=
        completeGoal_error_state O s c id e pr err herr
      exact ⟨by rw [show (step O s (Op.complete c id e pr)).1 =
          (completeGoal O s c id e pr).1 from rfl, h1],
        by rw [show (step O s (Op.complete c id e pr)).1 =
          (completeGoal O s c id e pr).1 from rfl, h1]⟩
  · intro c t d ed ep dp pp now hrej
    cases h64 : O.accepts64 ed dp
    · exact ⟨s, createGoal_deadline_rejected O s c t d ed ep dp pp now h64,
        rfl, rfl⟩
    · cases h8 : O.accepts8 ep pp
      · exact ⟨_,
          createGoal_priority_rejected O s c t d ed ep dp pp now h64 h8,
          rfl, rfl⟩
      · rcases hrej with h | h
        · rw [h64] at h
          exact absurd h (by simp)
        · rw [h8] at h
          exact absurd h (by simp)

/-- Witness for C5: on the empty store with an all-rejecting oracle, a
`createGoal` fails with `InvalidProof` and commits nothing. -/
theorem mutating_error_atomicity_witness :
    ∃ s', createGoal noOracle VaultState.empty "alice" "t" [] 5 6 [] [] 0 =
        (s', .error .InvalidProof) ∧
      s'.goals = VaultState.empty.goals ∧
      s'.goalsOf = VaultState.empty.goalsOf :=
  (mutating_error_atomicity noOracle VaultState.empty).2
    "alice" "t" [] 5 6 [] [] 0 (Or.inl rfl)

end GoalVault

namespace GoalVault

/-- C6: for every id at or beyond the record count, each dereferencing read
accessor fails with `NotFound` while `goalExists` returns false; the count
and listing queries never fail and return the respective counts/lists; and
existence of an id is exactly the predicate id < record count. -/
theorem reads_total_or_notfound (s : VaultState) (id : Nat) (p : Principal) :
    (s.goals.length ≤ id →
      getGoalMeta s id = .error .NotFound ∧
      getEncryptedDescription s id = .error .NotFound ∧
      getEncryptedDeadline s id = .error .NotFound ∧
      getEncryptedPriority s id = .error .NotFound ∧
      getEncryptedProgress s id = .error .NotFound ∧
      getEncryptedCompletedAt s id = .error .NotFound ∧
      goalExists s id = false) ∧
    getTotalGoals s = s.goals.length ∧
    getGoalCountByOwner s p = (s.goalsOf p).length ∧
    getGoalIdsByOwner s p = s.goalsOf p ∧
    (goalExists s id = true ↔ id < s.goals.length) := by
  refine ⟨fun hle => ?_, rfl, rfl, rfl, ?_⟩
  · have hnot : ¬ id < s.goals.length := Nat.not_lt.mpr hle
    simp [getGoalMeta, getEncryptedDescription, getEncryptedDeadline,
      getEncryptedPriority, getEncryptedProgress, getEncryptedCompletedAt,
      goalExists, hnot]
  · simp [goalExists]

/-- Witness for C6: on the empty store, id 3 does not exist and the metadata
read fails with `NotFound`. -/
theorem reads_total_or_notfound_witness :
    getGoalMeta VaultState.empty 3 = .error .NotFound ∧
    goalExists VaultState.empty 3 = false := by
  have h := (reads_total_or_notfound VaultState.empty 3 "alice").1 (by decide)
  exact ⟨h.1, h.2.2.2.2.2.2⟩

/-- A successful or failed `updateProgress` never changes the record
count. -/
theorem updateProgress_goals_length (O : Oracle) (s : VaultState)
    (c : Principal) (id e : Nat) (pr : List Nat) :
    (updateProgress O s c id e pr).1.goals.length = s.goals.length := by
  cases h : (updateProgress O s c id e pr).2 with
  | none =>
    obtain ⟨hid, hown, hcomp, hacc⟩ := updateProgress_ok_inv O s c id e pr h
    rw [updateProgress_accepts O s c id e pr hid hown hcomp hacc]
    simp
  | some err =>
    rw [updateProgress_error_state O s c id e pr err h]

/-- A successful or failed `completeGoal` never changes the record count. -/
theorem completeGoal_goals_length (O : Oracle) (s : VaultState)
    (c : Principal) (id e : Nat) (pr : List Nat) :
    (completeGoal O s c id e pr).1.goals.length = s.goals.length := by
  cases h : (completeGoal O s c id e pr).2 with
  | none =>
    obtain ⟨hid, hown, hcomp, hacc⟩ := completeGoal_ok_inv O s c id e pr h
    rw [completeGoal_accepts O s c id e pr hid hown hcomp hacc]
    simp
  | some err =>
    rw [completeGoal_error_state O s c id e pr err h]

/-- The record count never decreases across a step. -/
theorem step_goals_length_ge (O : Oracle) (s : VaultState) (op : Op) :
    s.goals.length ≤ (step O s op).1.goals.length := by
  cases op with
  | create c t d ed ep dp pp now =>
    rcases createGoal_result O s c t d ed ep dp pp now with
      ⟨s', hok, hlen⟩ | ⟨s', herr, hg, _⟩
    · rw [show (step O s (Op.create c t d ed ep dp pp now)).1 = s' by
        simp [step, hok]]
      omega
    · rw [show (step O s (Op.create c t d ed ep dp pp now)).1 = s' by
        simp [step, herr]]
      rw [hg]
  | update c id e pr =>
    rw [show (step O s (Op.update c id e pr)).1 =
      (updateProgress O s c id e pr).1 from rfl]
    rw [updateProgress_goals_length]
  | complete c id e pr =>
    rw [show (step O s (Op.complete c id e pr)).1 =
      (completeGoal O s c id e pr).1 from rfl]
    rw [completeGoal_goals_length]

/-- The record count never decreases across a whole run. -/
theorem run_goals_length_mono (O : Oracle) (ops : List Op) :
    ∀ s : VaultState, s.goals.length ≤ (run O s ops).goals.length := by
  induction ops with
  | nil => intro s; simp [run]
  | cons op ops ih =>
    intro s
    calc s.goals.length ≤ (step O s op).1.goals.length :=
          step_goals_length_ge O s op
      _ ≤ (run O (step O s op).1 ops).goals.length := ih (step O s op).1
      _ = (run O s (op :: ops)).goals.length := rfl

/-- The ids handed out by successful creations along a run are the
consecutive integers starting at the initial record count. -/
theorem createdIds_eq_range_aux (O : Oracle) (ops : List Op) :
    ∀ s : VaultState, createdIds O s ops =
      List.range' s.goals.length
        ((run O s ops).goals.length - s.goals.length) := by
  induction ops with
  | nil => intro s; simp [createdIds, run]
  | cons op ops ih =>
    intro s
    cases op with
    | create c t d ed ep dp pp now =>
      rcases createGoal_result O s c t d ed ep dp pp now with
        ⟨s', hok, hlen⟩ | ⟨s', herr, hg, _⟩
      · have hstep : (step O s (Op.create c t d ed ep dp pp now)).1 = s' := by
          simp [step, hok]
        have hci : createdIds O s (Op.create c t d ed ep dp pp now :: ops) =
            s.goals.length :: createdIds O s' ops := by
          simp [createdIds, hok]
        have hrun : run O s (Op.create c t d ed ep dp pp now :: ops) =
            run O s' ops := by
          rw [show run O s (Op.create c t d ed ep dp pp now :: ops) =
            run O (step O s (Op.create c t d ed ep dp pp now)).1 ops from rfl,
            hstep]
        have hmono := run_goals_length_mono O ops s'
        rw [hci, hrun, ih s', hlen]
        rw [hlen] at hmono
        rw [show (run O s' ops).goals.length - s.goals.length =
          ((run O s' ops).goals.length - (s.goals.length + 1)) + 1 by omega]
        rw [List.range'_succ]
      · have hstep : (step O s (Op.create c t d ed ep dp pp now)).1 = s' := by
          simp [step, herr]
        have hci : createdIds O s (Op.create c t d ed ep dp pp now :: ops) =
            createdIds O s' ops := by
          simp [createdIds, herr]
        have hrun : run O s (Op.create c t d ed ep dp pp now :: ops) =
            run O s' ops := by
          rw [show run O s (Op.create c t d ed ep dp pp now :: ops) =
            run O (step O s (Op.create c t d ed ep dp pp now)).1 ops from rfl,
            hstep]
        have hlen : s'.goals.length = s.goals.length := by rw [hg]
        rw [hci, hrun, ih s', hlen]
    | update c id e pr =>
      have hlen : (step O s (Op.update c id e pr)).1.goals.length =
          s.goals.length := updateProgress_goals_length O s c id e pr
      have hci : createdIds O s (Op.update c id e pr :: ops) =
          createdIds O (step O s (Op.update c id e pr)).1 ops := by
        simp [createdIds]
      have hrun : run O s (Op.update c id e pr :: ops) =
          run O (step O s (Op.update c id e pr)).1 ops := rfl
      rw [hci, hrun, ih, hlen]
    | complete c id e pr =>
      have hlen : (step O s (Op.complete c id e pr)).1.goals.length =
          s.goals.length := completeGoal_goals_length O s c id e pr
      have hci : createdIds O s (Op.complete c id e pr :: ops) =
          createdIds O (step O s (Op.complete c id e pr)).1 ops := by
        simp [createdIds]
      have hrun : run O s (Op.complete c id e pr :: ops) =
          run O (step O s (Op.complete c id e pr)).1 ops := rfl
      rw [hci, hrun, ih, hlen]

/-- C7: starting from the empty store, the ids returned by successive
successful `createGoal` calls are exactly 0, 1, 2, ... (strictly increasing
and dense): the k-th successful creation returns id k, after n successful
creations the record count is n, and ids below the record count all
exist. -/
theorem created_ids_dense (O : Oracle) (ops : List Op) :
    createdIds O VaultState.empty ops =
      List.range (run O VaultState.empty ops).goals.length ∧
    ∀ i, i < (run O VaultState.empty ops).goals.length →
      goalExists (run O VaultState.empty ops) i = true := by
  constructor
  · rw [createdIds_eq_range_aux O ops VaultState.empty]
    simp [VaultState.empty, List.range_eq_range']
  · intro i hi
    simp [goalExists, hi]

/-- Witness for C7: a concrete two-creation run hands out ids 0 and 1, and
both ids exist afterwards. -/
theorem created_ids_dense_witness :
    createdIds allOracle VaultState.empty
        [Op.create "alice" "t" [] 1 2 [] [] 0,
         Op.create "bob" "u" [] 3 4 [] [] 1] =
      List.range (run allOracle VaultState.empty
        [Op.create "alice" "t" [] 1 2 [] [] 0,
         Op.create "bob" "u" [] 3 4 [] [] 1]).goals.length ∧
    goalExists (run allOracle VaultState.empty
        [Op.create "alice" "t" [] 1 2 [] [] 0,
         Op.create "bob" "u" [] 3 4 [] [] 1]) 1 = true := by
  have h := created_ids_dense allOracle
    [Op.create "alice" "t" [] 1 2 [] [] 0,
     Op.create "bob" "u" [] 3 4 [] [] 1]
  exact ⟨h.1, h.2 1 (by decide)⟩

end GoalVault

namespace GoalVault

/-- Reading a set list off the written index is unchanged. -/
theorem getD_set_ne (l : List Goal) (id j : Nat) (g : Goal) (h : ¬ j = id) :
    (l.set id g).getD j default = l.getD j default := by
  by_cases hj : j < l.length
  · rw [List.getD_eq_getElem _ _ (by simpa using hj),
      List.getD_eq_getElem _ _ hj]
    exact List.getElem_set_ne (fun hh => h hh.symm) _
  · rw [List.getD_eq_default _ _ (by simpa using Nat.not_lt.mp hj),
      List.getD_eq_default _ _ (Nat.not_lt.mp hj)]

/-- Reading a set list at the written index yields the written element. -/
theorem getD_set_self (l : List Goal) (id : Nat) (g : Goal)
    (h : id < l.length) :
    (l.set id g).getD id default = g := by
  rw [List.getD_eq_getElem _ _ (by simpa using h)]
  simp

/-- Any position of the one-element list of an uncompleted goal reads as an
uncompleted goal. -/
theorem getD_singleton_not_completed (g : Goal) (hg : g.isCompleted = false)
    (n : Nat) : (([g] : List Goal).getD n default).isCompleted = false := by
  cases n with
  | zero => exact hg
  | succ m => rfl

/-- A step never changes any field of a record that is already completed. -/
theorem step_preserves_goalAt_completed (O : Oracle) (s : VaultState)
    (op : Op) (i : Nat) (h : (goalAt s i).isCompleted = true) :
    goalAt (step O s op).1 i = goalAt s i := by
  cases op with
  | create c t d ed ep dp pp now =>
    cases h64 : O.accepts64 ed dp with
    | false =>
      rw [show (step O s (Op.create c t d ed ep dp pp now)).1 = s by
        simp [step, createGoal_deadline_rejected O s c t d ed ep dp pp now h64]]
    | true =>
      cases h8 : O.accepts8 ep pp with
      | false =>
        rw [show (step O s (Op.create c t d ed ep dp pp now)).1 =
            { s with nextHandle := s.nextHandle + 1 } by
          simp [step,
            createGoal_priority_rejected O s c t d ed ep dp pp now h64 h8]]
        rfl
      | true =>
        rw [show (step O s (Op.create c t d ed ep dp pp now)).1 =
            (createGoal O s c t d ed ep dp pp now).1 by
          simp [step, createGoal_accepts O s c t d ed ep dp pp now h64 h8],
          createGoal_accepts O s c t d ed ep dp pp now h64 h8]
        by_cases hi : i < s.goals.length
        · simp only [goalAt]
          exact List.getD_append _ _ _ _ hi
        · exfalso
          simp only [goalAt] at h
          rw [List.getD_eq_default _ _ (Nat.not_lt.mp hi)] at h
          exact absurd h (by decide)
  | update c id e pr =>
    cases hres : (updateProgress O s c id e pr).2 with
    | some err =>
      rw [show (step O s (Op.update c id e pr)).1 =
        (updateProgress O s c id e pr).1 from rfl,
        updateProgress_error_state O s c id e pr err hres]
    | none =>
      obtain ⟨hid, hown, hcomp, hacc⟩ := updateProgress_ok_inv O s c id e pr hres
      rw [show (step O s (Op.update c id e pr)).1 =
        (updateProgress O s c id e pr).1 from rfl,
        updateProgress_accepts O s c id e pr hid hown hcomp hacc]
      by_cases hij : i = id
      · exfalso
        rw [hij] at h
        rw [hcomp] at h
        exact absurd h (by decide)
      · simp only [goalAt]
        exact getD_set_ne _ _ _ _ hij
  | complete c id e pr =>
    cases hres : (completeGoal O s c id e pr).2 with
    | some err =>
      rw [show (step O s (Op.complete c id e pr)).1 =
        (completeGoal O s c id e pr).1 from rfl,
        completeGoal_error_state O s c id e pr err hres]
    | none =>
      obtain ⟨hid, hown, hcomp, hacc⟩ := completeGoal_ok_inv O s c id e pr hres
      rw [show (step O s (Op.complete c id e pr)).1 =
        (completeGoal O s c id e pr).1 from rfl,
        completeGoal_accepts O s c id e pr hid hown hcomp hacc]
      by_cases hij : i = id
      · exfalso
        rw [hij] at h
        rw [hcomp] at h
        exact absurd h (by decide)
      · simp only [goalAt]
        exact getD_set_ne _ _ _ _ hij

/-- A whole run never changes any field of a record that is already
completed. -/
theorem run_preserves_goalAt_completed (O : Oracle) (ops : List Op) :
    ∀ (s : VaultState) (i : Nat), (goalAt s i).isCompleted = true →
      goalAt (run O s ops) i = goalAt s i := by
  induction ops with
  | nil => intro s i _; rfl
  | cons op ops ih =>
    intro s i h
    have h1 := step_preserves_goalAt_completed O s op i h
    have h2 : (goalAt (step O s op).1 i).isCompleted = true := by
      rw [h1]; exact h
    calc goalAt (run O s (op :: ops)) i
        = goalAt (run O (step O s op).1 ops) i := rfl
      _ = goalAt (step O s op).1 i := ih (step O s op).1 i h2
      _ = goalAt s i := h1

/-- The only step that turns a record's `isCompleted` from false to true is
a successful `completeGoal` on that very record. -/
theorem step_completed_flip_inv (O : Oracle) (s : VaultState) (op : Op)
    (i : Nat) (h0 : (goalAt s i).isCompleted = false)
    (h1 : (goalAt (step O s op).1 i).isCompleted = true) :
    ∃ c e pr, op = Op.complete c i e pr ∧ (step O s op).2 = none := by
  cases op with
  | create c t d ed ep dp pp now =>
    exfalso
    cases h64 : O.accepts64 ed dp with
    | false =>
      rw [show (step O s (Op.create c t d ed ep dp pp now)).1 = s by
        simp [step, createGoal_deadline_rejected O s c t d ed ep dp pp now h64]]
        at h1
      rw [h0] at h1
      exact absurd h1 (by decide)
    | true =>
      cases h8 : O.accepts8 ep pp with
      | false =>
        rw [show (step O s (Op.create c t d ed ep dp pp now)).1 =
            { s with nextHandle := s.nextHandle + 1 } by
          simp [step,
            createGoal_priority_rejected O s c t d ed ep dp pp now h64 h8]]
          at h1
        rw [show goalAt { s with nextHandle := s.nextHandle + 1 } i =
          goalAt s i from rfl, h0] at h1
        exact absurd h1 (by decide)
      | true =>
        rw [show (step O s (Op.create c t d ed ep dp pp now)).1 =
            (createGoal O s c t d ed ep dp pp now).1 by
          simp [step, createGoal_accepts O s c t d ed ep dp pp now h64 h8],
          createGoal_accepts O s c t d ed ep dp pp now h64 h8] at h1
        by_cases hi : i < s.goals.length
        · simp only [goalAt] at h1
          rw [List.getD_append _ _ _ _ hi] at h1
          simp only [goalAt] at h0
          rw [h0] at h1
          exact absurd h1 (by decide)
        · simp only [goalAt] at h1
          rw [List.getD_append_right _ _ _ _ (Nat.not_lt.mp hi)] at h1
          rw [getD_singleton_not_completed _ rfl _] at h1
          exact absurd h1 (by decide)
  | update c id e pr =>
    exfalso
    cases hres : (updateProgress O s c id e pr).2 with
    | some err =>
      rw [show (step O s (Op.update c id e pr)).1 =
        (updateProgress O s c id e pr).1 from rfl,
        updateProgress_error_state O s c id e pr err hres, h0] at h1
      exact absurd h1 (by decide)
    | none =>
      obtain ⟨hid, hown, hcomp, hacc⟩ := updateProgress_ok_inv O s c id e pr hres
      rw [show (step O s (Op.update c id e pr)).1 =
        (updateProgress O s c id e pr).1 from rfl,
        updateProgress_accepts O s c id e pr hid hown hcomp hacc] at h1
      by_cases hij : i = id
      · rw [hij] at h1
        simp only [goalAt] at h1
        rw [getD_set_self _ _ _ hid] at h1
        simp only [goalAt] at hcomp
        rw [show ({ (s.goals.getD id default) with
            encryptedProgress := s.nextHandle } : Goal).isCompleted =
          (s.goals.getD id default).isCompleted from rfl, hcomp] at h1
        exact absurd h1 (by decide)
      · simp only [goalAt] at h1
        rw [getD_set_ne _ _ _ _ hij] at h1
        simp only [goalAt] at h0
        rw [h0] at h1
        exact absurd h1 (by decide)
  | complete c id e pr =>
    cases hres : (completeGoal O s c id e pr).2 with
    | some err =>
      exfalso
      rw [show (step O s (Op.complete c id e pr)).1 =
        (completeGoal O s c id e pr).1 from rfl,
        completeGoal_error_state O s c id e pr err hres, h0] at h1
      exact absurd h1 (by decide)
    | none =>
      obtain ⟨hid, hown, hcomp, hacc⟩ := completeGoal_ok_inv O s c id e pr hres
      by_cases hij : i = id
      · exact ⟨c, e, pr, by rw [hij], hres⟩
      · exfalso
        rw [show (step O s (Op.complete c id e pr)).1 =
          (completeGoal O s c id e pr).1 from rfl,
          completeGoal_accepts O s c id e pr hid hown hcomp hacc] at h1
        simp only [goalAt] at h1
        rw [getD_set_ne _ _ _ _ hij] at h1
        simp only [goalAt] at h0
        rw [h0] at h1
        exact absurd h1 (by decide)

end GoalVault

namespace GoalVault

/-- The witness state `sampleState` with goal 0 marked completed. -/
def sampleCompletedState : VaultState :=
  { sampleState with goals := [{ sampleGoal with isCompleted := true }] }

/-- C2 (amended): `isCompleted` transitions at most once and only from
false to true, and only via a successful `completeGoal` on that record;
once true, every subsequent `updateProgress` or `completeGoal` on that
record fails — with `AlreadyCompleted` when the caller is the record's
owner, and with `Unauthorized` otherwise — and the record (in particular
`encryptedProgress` and `encryptedCompletedAt`) is never changed again. -/
theorem completed_goal_frozen (O : Oracle) (s : VaultState) (i : Nat) :
    ((goalAt s i).isCompleted = true →
      (∀ ops, goalAt (run O s ops) i = goalAt s i) ∧
      (∀ c e pr, i < s.goals.length →
        updateProgress O s c i e pr =
          (s, some (if (goalAt s i).owner = c then .AlreadyCompleted
                    else .Unauthorized)) ∧
        completeGoal O s c i e pr =
          (s, some (if (goalAt s i).owner = c then .AlreadyCompleted
                    else .Unauthorized)))) ∧
    (∀ op, (goalAt s i).isCompleted = false →
      (goalAt (step O s op).1 i).isCompleted = true →
      ∃ c e pr, op = Op.complete c i e pr ∧ (step O s op).2 = none) := by
  constructor
  · intro hcomp
    constructor
    · intro ops
      exact run_preserves_goalAt_completed O ops s i hcomp
    · intro c e pr hid
      by_cases hown : (goalAt s i).owner = c
      · rw [if_pos hown]
        exact ⟨updateProgress_already_completed O s c i e pr hid hown hcomp,
          completeGoal_already_completed O s c i e pr hid hown hcomp⟩
      · rw [if_neg hown]
        exact ⟨updateProgress_unauthorized O s c i e pr hid hown,
          completeGoal_unauthorized O s c i e pr hid hown⟩
  · intro op h0 h1
    exact step_completed_flip_inv O s op i h0 h1

/-- Counterexample to C2 as stated: on a completed record owned by alice, a
subsequent `updateProgress` by bob fails with `Unauthorized`, not with
`AlreadyCompleted`. -/
theorem completed_goal_frozen_counterexample :
    (goalAt sampleCompletedState 0).isCompleted = true ∧
    (updateProgress allOracle sampleCompletedState "bob" 0 9 []).2 =
      some VaultError.Unauthorized ∧
    (updateProgress allOracle sampleCompletedState "bob" 0 9 []).2 ≠
      some VaultError.AlreadyCompleted := by
  refine ⟨rfl, rfl, ?_⟩
  intro h
  exact absurd (Option.some.inj h) (by decide)

/-- Witness for C2 (amended): at a concrete completed one-goal state, a run
leaves the record untouched, and the owner's own update attempt fails with
`AlreadyCompleted`. -/
theorem completed_goal_frozen_witness :
    goalAt (run allOracle sampleCompletedState
        [Op.update "alice" 0 9 []]) 0 = goalAt sampleCompletedState 0 ∧
    updateProgress allOracle sampleCompletedState "alice" 0 9 [] =
      (sampleCompletedState,
       some (if (goalAt sampleCompletedState 0).owner = "alice" then
          VaultError.AlreadyCompleted else VaultError.Unauthorized)) := by
  have h := (completed_goal_frozen allOracle sampleCompletedState 0).1 rfl
  exact ⟨h.1 [Op.update "alice" 0 9 []],
    (h.2 "alice" 9 [] (by decide)).1⟩

end GoalVault

namespace GoalVault

/-- Inversion for a successful `createGoal`: both proofs were accepted. -/
theorem createGoal_ok_inv (O : Oracle) (s : VaultState) (c : Principal)
    (t : String) (d : List Nat) (ed ep : Nat) (dp pp : List Nat) (now : Nat)
    (s' : VaultState) (rid : Nat)
    (h : createGoal O s c t d ed ep dp pp now = (s', .ok rid)) :
    O.accepts64 ed dp = true ∧ O.accepts8 ep pp = true := by
  cases h64 : O.accepts64 ed dp
  · rw [createGoal_deadline_rejected O s c t d ed ep dp pp now h64] at h
    exact absurd (congrArg Prod.snd h) (by simp)
  · cases h8 : O.accepts8 ep pp
    · rw [createGoal_priority_rejected O s c t d ed ep dp pp now h64 h8] at h
      exact absurd (congrArg Prod.snd h) (by simp)
    · exact ⟨rfl, rfl⟩

/-- Record-level reading of a successful `updateProgress`: the targeted
record has only its `encryptedProgress` replaced (by the fresh handle), and
every other position is untouched. -/
theorem goalAt_updateProgress_accepts (O : Oracle) (s : VaultState)
    (c : Principal) (id e : Nat) (pr : List Nat)
    (hid : id < s.goals.length) (hown : (goalAt s id).owner = c)
    (hcomp : (goalAt s id).isCompleted = false)
    (hacc : O.accepts8 e pr = true) :
    (∀ j, ¬ j = id →
      goalAt (updateProgress O s c id e pr).1 j = goalAt s j) ∧
    goalAt (updateProgress O s c id e pr).1 id =
      { (goalAt s id) with encryptedProgress := s.nextHandle } := by
  rw [updateProgress_accepts O s c id e pr hid hown hcomp hacc]
  constructor
  · intro j hij
    simp only [goalAt]
    exact getD_set_ne _ _ _ _ hij
  · simp only [goalAt]
    exact getD_set_self _ _ _ hid

/-- Record-level reading of a successful `completeGoal`: the targeted
record has only `encryptedCompletedAt` and `isCompleted` replaced, and
every other position is untouched. -/
theorem goalAt_completeGoal_accepts (O : Oracle) (s : VaultState)
    (c : Principal) (id e : Nat) (pr : List Nat)
    (hid : id < s.goals.length) (hown : (goalAt s id).owner = c)
    (hcomp : (goalAt s id).isCompleted = false)
    (hacc : O.accepts64 e pr = true) :
    (∀ j, ¬ j = id →
      goalAt (completeGoal O s c id e pr).1 j = goalAt s j) ∧
    goalAt (completeGoal O s c id e pr).1 id =
      { (goalAt s id) with encryptedCompletedAt := s.nextHandle,
                           isCompleted := true } := by
  rw [completeGoal_accepts O s c id e pr hid hown hcomp hacc]
  constructor
  · intro j hij
    simp only [goalAt]
    exact getD_set_ne _ _ _ _ hij
  · simp only [goalAt]
    exact getD_set_self _ _ _ hid

/-- Record-level reading of a successful `createGoal`: every pre-existing
position is untouched. -/
theorem goalAt_createGoal_accepts (O : Oracle) (s : VaultState)
    (c : Principal) (t : String) (d : List Nat) (ed ep : Nat)
    (dp pp : List Nat) (now : Nat)
    (h64 : O.accepts64 ed dp = true) (h8 : O.accepts8 ep pp = true) :
    ∀ j, j < s.goals.length →
      goalAt (createGoal O s c t d ed ep dp pp now).1 j = goalAt s j := by
  rw [createGoal_accepts O s c t d ed ep dp pp now h64 h8]
  intro j hj
  simp only [goalAt]
  exact List.getD_append _ _ _ _ hj

end GoalVault

namespace GoalVault

/-- The state reached by a create step is the state `createGoal` returns,
whether or not it succeeded. -/
theorem step_create_fst (O : Oracle) (s : VaultState) (c : Principal)
    (t : String) (d : List Nat) (ed ep : Nat) (dp pp : List Nat) (now : Nat) :
    (step O s (Op.create c t d ed ep dp pp now)).1 =
      (createGoal O s c t d ed ep dp pp now).1 := by
  rcases hc : createGoal O s c t d ed ep dp pp now with ⟨s', r⟩
  cases r
  · simp [step, hc]
  · simp [step, hc]

/-- C9: for every existing record, the fields `owner`, `title`,
`encryptedDescription`, `encryptedDeadline`, `encryptedPriority` and
`createdAt` are unchanged by every operation; a successful `updateProgress`
modifies only `encryptedProgress` of the targeted record, a successful
`completeGoal` only `encryptedCompletedAt` and `isCompleted`, and no
operation modifies any field of any other record. -/
theorem record_frame_conditions (O : Oracle) (s : VaultState) :
    (∀ op i, i < s.goals.length →
      (goalAt (step O s op).1 i).owner = (goalAt s i).owner ∧
      (goalAt (step O s op).1 i).title = (goalAt s i).title ∧
      (goalAt (step O s op).1 i).encryptedDescription =
        (goalAt s i).encryptedDescription ∧
      (goalAt (step O s op).1 i).encryptedDeadline =
        (goalAt s i).encryptedDeadline ∧
      (goalAt (step O s op).1 i).encryptedPriority =
        (goalAt s i).encryptedPriority ∧
      (goalAt (step O s op).1 i).createdAt = (goalAt s i).createdAt) ∧
    (∀ c id e pr s', updateProgress O s c id e pr = (s', none) →
      (∀ j, ¬ j = id → goalAt s' j = goalAt s j) ∧
      goalAt s' id =
        { (goalAt s id) with encryptedProgress := s.nextHandle }) ∧
    (∀ c id e pr s', completeGoal O s c id e pr = (s', none) →
      (∀ j, ¬ j = id → goalAt s' j = goalAt s j) ∧
      goalAt s' id =
        { (goalAt s id) with encryptedCompletedAt := s.nextHandle,
                             isCompleted := true }) ∧
    (∀ c t d ed ep dp pp now s' rid,
      createGoal O s c t d ed ep dp pp now = (s', .ok rid) →
      ∀ j, j < s.goals.length → goalAt s' j = goalAt s j) := by
  refine ⟨?_, ?_, ?_, ?_⟩
  · intro op i hi
    cases op with
    | create c t d ed ep dp pp now =>
      rw [step_create_fst O s c t d ed ep dp pp now]
      cases h64 : O.accepts64 ed dp with
      | false =>
        rw [createGoal_deadline_rejected O s c t d ed ep dp pp now h64]
        exact ⟨rfl, rfl, rfl, rfl, rfl, rfl⟩
      | true =>
        cases h8 : O.accepts8 ep pp with
        | false =>
          rw [createGoal_priority_rejected O s c t d ed ep dp pp now h64 h8]
          exact ⟨rfl, rfl, rfl, rfl, rfl, rfl⟩
        | true =>
          rw [goalAt_createGoal_accepts O s c t d ed ep dp pp now h64 h8 i hi]
          exact ⟨rfl, rfl, rfl, rfl, rfl, rfl⟩
    | update c id e pr =>
      rw [show (step O s (Op.update c id e pr)).1 =
        (updateProgress O s c id e pr).1 from rfl]
      cases hres : (updateProgress O s c id e pr).2 with
      | some err =>
        rw [updateProgress_error_state O s c id e pr err hres]
        exact ⟨rfl, rfl, rfl, rfl, rfl, rfl⟩
      | none =>
        obtain ⟨hid, hown, hcomp, hacc⟩ :=
          updateProgress_ok_inv O s c id e pr hres
        by_cases hij : i = id
        · rw [hij,
            (goalAt_updateProgress_accepts O s c id e pr hid hown hcomp
              hacc).2]
          exact ⟨rfl, rfl, rfl, rfl, rfl, rfl⟩
        · rw [(goalAt_updateProgress_accepts O s c id e pr hid hown hcomp
              hacc).1 i hij]
          exact ⟨rfl, rfl, rfl, rfl, rfl, rfl⟩
    | complete c id e pr =>
      rw [show (step O s (Op.complete c id e pr)).1 =
        (completeGoal O s c id e pr).1 from rfl]
      cases hres : (completeGoal O s c id e pr).2 with
      | some err =>
        rw [completeGoal_error_state O s c id e pr err hres]
        exact ⟨rfl, rfl, rfl, rfl, rfl, rfl⟩
      | none =>
        obtain ⟨hid, hown, hcomp, hacc⟩ :=
          completeGoal_ok_inv O s c id e pr hres
        by_cases hij : i = id
        · rw [hij,
            (goalAt_completeGoal_accepts O s c id e pr hid hown hcomp
              hacc).2]
          exact ⟨rfl, rfl, rfl, rfl, rfl, rfl⟩
        · rw [(goalAt_completeGoal_accepts O s c id e pr hid hown hcomp
              hacc).1 i hij]
          exact ⟨rfl, rfl, rfl, rfl, rfl, rfl⟩
  · intro c id e pr s' h
    obtain ⟨hid, hown, hcomp, hacc⟩ :=
      updateProgress_ok_inv O s c id e pr (congrArg Prod.snd h)
    have hfst : (updateProgress O s c id e pr).1 = s' := congrArg Prod.fst h
    rw [← hfst]
    exact goalAt_updateProgress_accepts O s c id e pr hid hown hcomp hacc
  · intro c id e pr s' h
    obtain ⟨hid, hown, hcomp, hacc⟩ :=
      completeGoal_ok_inv O s c id e pr (congrArg Prod.snd h)
    have hfst : (completeGoal O s c id e pr).1 = s' := congrArg Prod.fst h
    rw [← hfst]
    exact goalAt_completeGoal_accepts O s c id e pr hid hown hcomp hacc
  · intro c t d ed ep dp pp now s' rid h
    obtain ⟨h64, h8⟩ := createGoal_ok_inv O s c t d ed ep dp pp now s' rid h
    have hfst : (createGoal O s c t d ed ep dp pp now).1 = s' :=
      congrArg Prod.fst h
    rw [← hfst]
    exact goalAt_createGoal_accepts O s c t d ed ep dp pp now h64 h8

/-- Witness for C9: at a concrete one-goal state, a successful owner update
replaces exactly the progress handle of record 0, all other fields kept. -/
theorem record_frame_conditions_witness :
    goalAt (updateProgress allOracle sampleState "alice" 0 7 []).1 0 =
      { (goalAt sampleState 0) with
          encryptedProgress := sampleState.nextHandle } := by
  have h := (record_frame_conditions allOracle sampleState).2.1 "alice" 0 7 []
    (updateProgress allOracle sampleState "alice" 0 7 []).1 rfl
  exact h.2

end GoalVault

namespace GoalVault

/-- ACL well-formedness: every granted handle was previously issued by the
oracle (is below the fresh-handle counter).  It holds for the deployed
contract and is preserved by every operation. -/
def AclWf (s : VaultState) : Prop :=
  ∀ a ∈ s.acl, a.1 < s.nextHandle

/-- A handle at or above the issue counter has no grants in a well-formed
ACL, so its grants in an extended ACL are exactly the appended ones. -/
theorem acl_lookup_fresh (acl entries : List (Nat × Principal)) (nh h0 : Nat)
    (hwf : ∀ a ∈ acl, a.1 < nh) (hh : nh ≤ h0) (p : Principal) :
    ((h0, p) ∈ acl ++ entries ↔ (h0, p) ∈ entries) := by
  constructor
  · intro hm
    rcases List.mem_append.mp hm with hm | hm
    · have h1 : h0 < nh := hwf _ hm
      exact absurd h1 (by omega)
    · exact hm
  · intro hm
    exact List.mem_append.mpr (Or.inr hm)

/-- Record-level reading of a successful `createGoal` at the new id: the
freshly appended record carries the four freshly issued handles. -/
theorem goalAt_createGoal_accepts_new (O : Oracle) (s : VaultState)
    (c : Principal) (t : String) (d : List Nat) (ed ep : Nat)
    (dp pp : List Nat) (now : Nat)
    (h64 : O.accepts64 ed dp = true) (h8 : O.accepts8 ep pp = true) :
    goalAt (createGoal O s c t d ed ep dp pp now).1 s.goals.length =
      { owner := c, title := t, encryptedDescription := d,
        encryptedDeadline := s.nextHandle,
        encryptedPriority := s.nextHandle + 1,
        encryptedProgress := s.nextHandle + 2,
        encryptedCompletedAt := s.nextHandle + 3,
        isCompleted := false, createdAt := now } := by
  have h := createGoal_accepts O s c t d ed ep dp pp now h64 h8
  have hg : (createGoal O s c t d ed ep dp pp now).1.goals =
      s.goals ++ [{ owner := c, title := t, encryptedDescription := d,
                    encryptedDeadline := s.nextHandle,
                    encryptedPriority := s.nextHandle + 1,
                    encryptedProgress := s.nextHandle + 2,
                    encryptedCompletedAt := s.nextHandle + 3,
                    isCompleted := false, createdAt := now }] := by rw [h]
  simp only [goalAt, hg]
  rw [List.getD_append_right _ _ _ _ (Nat.le_refl _)]
  simp

/-- C8: immediately after any encrypted handle of a record is set (the four
handles of a successful `createGoal`, the progress handle of a successful
`updateProgress`, the completedAt handle of a successful `completeGoal`),
the principals the oracle authorizes to decrypt that handle are exactly the
store itself and the record's owner (two principals whenever these are
distinct); re-setting a handle re-establishes this for the new handle while
no existing grant — in particular the old handle's — is ever revoked. -/
theorem handle_authorization_exactly_two (O : Oracle) (s : VaultState)
    (hwf : AclWf s) :
    (∀ c t d ed ep dp pp now s' rid,
      createGoal O s c t d ed ep dp pp now = (s', .ok rid) →
      ∀ p,
        (((goalAt s' rid).encryptedDeadline, p) ∈ s'.acl ↔
          (p = addressThis ∨ p = c)) ∧
        (((goalAt s' rid).encryptedPriority, p) ∈ s'.acl ↔
          (p = addressThis ∨ p = c)) ∧
        (((goalAt s' rid).encryptedProgress, p) ∈ s'.acl ↔
          (p = addressThis ∨ p = c)) ∧
        (((goalAt s' rid).encryptedCompletedAt, p) ∈ s'.acl ↔
          (p = addressThis ∨ p = c))) ∧
    (∀ c id e pr s', updateProgress O s c id e pr = (s', none) →
      (∀ p, (((goalAt s' id).encryptedProgress, p) ∈ s'.acl ↔
        (p = addressThis ∨ p = c))) ∧
      (∀ a, a ∈ s.acl → a ∈ s'.acl)) ∧
    (∀ c id e pr s', completeGoal O s c id e pr = (s', none) →
      (∀ p, (((goalAt s' id).encryptedCompletedAt, p) ∈ s'.acl ↔
        (p = addressThis ∨ p = c))) ∧
      (∀ a, a ∈ s.acl → a ∈ s'.acl)) := by
  refine ⟨?_, ?_, ?_⟩
  · intro c t d ed ep dp pp now s' rid h
    obtain ⟨h64, h8⟩ := createGoal_ok_inv O s c t d ed ep dp pp now s' rid h
    have hfst : (createGoal O s c t d ed ep dp pp now).1 = s' :=
      congrArg Prod.fst h
    have hsnd := congrArg Prod.snd h
    rw [createGoal_accepts O s c t d ed ep dp pp now h64 h8] at hsnd
    have hrid : rid = s.goals.length := (Except.ok.inj hsnd).symm
    subst hrid
    rw [← hfst]
    intro p
    have hnew := goalAt_createGoal_accepts_new O s c t d ed ep dp pp now h64 h8
    have hacl : (createGoal O s c t d ed ep dp pp now).1.acl =
        s.acl ++ [(s.nextHandle, addressThis), (s.nextHandle, c),
          (s.nextHandle + 1, addressThis), (s.nextHandle + 1, c),
          (s.nextHandle + 2, addressThis), (s.nextHandle + 2, c),
          (s.nextHandle + 3, addressThis), (s.nextHandle + 3, c)] := by
      rw [createGoal_accepts O s c t d ed ep dp pp now h64 h8]
    refine ⟨?_, ?_, ?_, ?_⟩
    · rw [show (goalAt (createGoal O s c t d ed ep dp pp now).1
          s.goals.length).encryptedDeadline = s.nextHandle by rw [hnew],
        hacl, acl_lookup_fresh s.acl _ s.nextHandle s.nextHandle hwf
          (Nat.le_refl _) p]
      simp [Prod.ext_iff]
    · rw [show (goalAt (createGoal O s c t d ed ep dp pp now).1
          s.goals.length).encryptedPriority = s.nextHandle + 1 by rw [hnew],
        hacl, acl_lookup_fresh s.acl _ s.nextHandle (s.nextHandle + 1) hwf
          (by omega) p]
      simp [Prod.ext_iff]
    · rw [show (goalAt (createGoal O s c t d ed ep dp pp now).1
          s.goals.length).encryptedProgress = s.nextHandle + 2 by rw [hnew],
        hacl, acl_lookup_fresh s.acl _ s.nextHandle (s.nextHandle + 2) hwf
          (by omega) p]
      simp [Prod.ext_iff]
    · rw [show (goalAt (createGoal O s c t d ed ep dp pp now).1
          s.goals.length).encryptedCompletedAt = s.nextHandle + 3 by
            rw [hnew],
        hacl, acl_lookup_fresh s.acl _ s.nextHandle (s.nextHandle + 3) hwf
          (by omega) p]
      simp [Prod.ext_iff]
  · intro c id e pr s' h
    obtain ⟨hid, hown, hcomp, hacc⟩ :=
      updateProgress_ok_inv O s c id e pr (congrArg Prod.snd h)
    have hfst : (updateProgress O s c id e pr).1 = s' := congrArg Prod.fst h
    have hacl : (updateProgress O s c id e pr).1.acl =
        s.acl ++ [(s.nextHandle, addressThis), (s.nextHandle, c)] := by
      rw [updateProgress_accepts O s c id e pr hid hown hcomp hacc]
    rw [← hfst]
    constructor
    · intro p
      rw [show (goalAt (updateProgress O s c id e pr).1
            id).encryptedProgress = s.nextHandle by
          rw [(goalAt_updateProgress_accepts O s c id e pr hid hown hcomp
            hacc).2],
        hacl, acl_lookup_fresh s.acl _ s.nextHandle s.nextHandle hwf
          (Nat.le_refl _) p]
      simp [Prod.ext_iff]
    · intro a ha
      rw [hacl]
      exact List.mem_append.mpr (Or.inl ha)
  · intro c id e pr s' h
    obtain ⟨hid, hown, hcomp, hacc⟩ :=
      completeGoal_ok_inv O s c id e pr (congrArg Prod.snd h)
    have hfst : (completeGoal O s c id e pr).1 = s' := congrArg Prod.fst h
    have hacl : (completeGoal O s c id e pr).1.acl =
        s.acl ++ [(s.nextHandle, addressThis), (s.nextHandle, c)] := by
      rw [completeGoal_accepts O s c id e pr hid hown hcomp hacc]
    rw [← hfst]
    constructor
    · intro p
      rw [show (goalAt (completeGoal O s c id e pr).1
            id).encryptedCompletedAt = s.nextHandle by
          rw [(goalAt_completeGoal_accepts O s c id e pr hid hown hcomp
            hacc).2],
        hacl, acl_lookup_fresh s.acl _ s.nextHandle s.nextHandle hwf
          (Nat.le_refl _) p]
      simp [Prod.ext_iff]
    · intro a ha
      rw [hacl]
      exact List.mem_append.mpr (Or.inl ha)

/-- Witness for C8: after a concrete creation on the empty store, the new
record's deadline handle is authorized for its owner alice. -/
theorem handle_authorization_exactly_two_witness :
    ((goalAt (createGoal allOracle VaultState.empty
        "alice" "t" [] 1 2 [] [] 0).1 0).encryptedDeadline, "alice") ∈
      (createGoal allOracle VaultState.empty
        "alice" "t" [] 1 2 [] [] 0).1.acl := by
  have h := (handle_authorization_exactly_two allOracle VaultState.empty
      (by simp [AclWf, VaultState.empty])).1
    "alice" "t" [] 1 2 [] [] 0
    (createGoal allOracle VaultState.empty "alice" "t" [] 1 2 [] [] 0).1
    0 rfl "alice"
  exact (h.1).mpr (Or.inr rfl)

end GoalVault

namespace Crypto

/-- C4: for every plaintext, every identifier and any freshly drawn nonce,
decrypting the blob under the same identifier returns exactly the
plaintext. -/
theorem decrypt_encrypt_roundtrip (p a : String) (nonce : List Nat) :
    decryptDescription (encryptDescription p a nonce) a = .ok p := by
  simp [decryptDescription, encryptDescription]

/-- Counterexample to C3 as stated: the identifiers are distinct as strings
but differ only in letter case, so key derivation (which lowercases the
identifier) yields the same key and decryption succeeds instead of
failing. -/
theorem cross_identity_counterexample :
    ("0xAbC" : String) ≠ "0xabc" ∧
    decryptDescription
      (encryptDescription "secret" "0xAbC" (List.replicate 12 0))
      "0xabc" = .ok "secret" := by
  constructor
  · decide
  · rfl

/-- C3 (amended): decrypting under identifier b a blob encrypted under
identifier a fails with `DecryptionFailed` whenever the lowercased forms of
a and b differ (equivalently, whenever the derived keys differ under the
ideal collision-free hash). -/
theorem cross_identity_distinct_fails (p a b : String) (nonce : List Nat)
    (h : toLowerCase a ≠ toLowerCase b) :
    decryptDescription (encryptDescription p a nonce) b =
      .error .DecryptionFailed := by
  simp [decryptDescription, encryptDescription, deriveKeyFromAddress, h]

/-- Witness for C3 (amended) at concrete distinct identifiers. -/
theorem cross_identity_distinct_fails_witness :
    decryptDescription
      (encryptDescription "secret" "alice" (List.replicate 12 0)) "bob" =
      .error .DecryptionFailed :=
  cross_identity_distinct_fails "secret" "alice" "bob" (List.replicate 12 0)
    (by decide)

end Crypto

namespace ByteCipher

/-- The per-byte hex encoder always produces two characters (byte values
are below 256, where `toString(16)` yields at most two digits and
`padStart(2)` completes them to exactly two). -/
theorem byteToHex_length (b : Nat) : (byteToHex b).length = 2 := by
  unfold byteToHex byteToHexNoPad
  split <;> simp

/-- Hex encoding doubles the length. -/
theorem bytesToHex_length (bs : List Nat) :
    (bytesToHex bs).length = 2 * bs.length := by
  induction bs with
  | nil => rfl
  | cons b bs ih =>
    show (byteToHex b ++ (bs.map byteToHex).flatten).length =
      2 * (bs.length + 1)
    rw [List.length_append, byteToHex_length,
      show ((bs.map byteToHex).flatten).length = 2 * bs.length from ih]
    omega

/-- The masked body has the plaintext's length. -/
theorem gcmBody_length (key nonce pt : List Nat) :
    (gcmBody key nonce pt).length = pt.length := by
  unfold gcmBody
  rw [List.length_zipWith, List.length_range]
  exact Nat.min_self _

/-- The tag is 16 bytes. -/
theorem gcmTag_length (key nonce ct : List Nat) :
    (gcmTag key nonce ct).length = 16 := by
  unfold gcmTag
  rw [List.length_map, List.length_range]

/-- AES-GCM output is plaintext length plus 16. -/
theorem aesGcmEncrypt_length (key nonce pt : List Nat) :
    (aesGcmEncrypt key nonce pt).length = pt.length + 16 := by
  unfold aesGcmEncrypt
  rw [List.length_append, gcmBody_length, gcmTag_length]

/-- Nonce-prefixed output adds the nonce length. -/
theorem chacha20Encrypt_length (key nonce pt : List Nat) :
    (chacha20Encrypt key nonce pt).length =
      nonce.length + (pt.length + 16) := by
  unfold chacha20Encrypt
  rw [List.length_append, aesGcmEncrypt_length]

/-- C10: for every description of n UTF-8 bytes, every identifier and every
fresh 12-byte nonce, the blob is the string `0x` followed by the hex
encoding of the nonce concatenated with an authenticated ciphertext of
exactly n + 16 bytes; hence the blob's string length is always
2 + 2·(n + 28), and the exact plaintext byte length is computable from the
public blob alone. -/
theorem encrypted_blob_format (d a : String) (nonce : List Nat)
    (hn : nonce.length = 12) (_hb : ∀ x ∈ nonce, x < 256) :
    encryptDescriptionBlob d a nonce =
      "0x" ++ String.mk (bytesToHex (nonce ++
        aesGcmEncrypt (deriveKeyFromAddress a) nonce (toUtf8Bytes d))) ∧
    (aesGcmEncrypt (deriveKeyFromAddress a) nonce (toUtf8Bytes d)).length =
      (toUtf8Bytes d).length + 16 ∧
    (encryptDescriptionBlob d a nonce).length =
      2 + 2 * ((toUtf8Bytes d).length + 28) ∧
    (toUtf8Bytes d).length =
      ((encryptDescriptionBlob d a nonce).length - 2) / 2 - 28 := by
  have hblob : (encryptDescriptionBlob d a nonce).length =
      2 + 2 * ((toUtf8Bytes d).length + 28) := by
    unfold encryptDescriptionBlob
    rw [String.length_append,
      show (String.mk (bytesToHex (chacha20Encrypt (deriveKeyFromAddress a)
          nonce (toUtf8Bytes d)))).length =
        (bytesToHex (chacha20Encrypt (deriveKeyFromAddress a) nonce
          (toUtf8Bytes d))).length from rfl,
      bytesToHex_length, chacha20Encrypt_length, hn,
      show ("0x" : String).length = 2 from rfl]
    omega
  exact ⟨rfl, aesGcmEncrypt_length _ _ _, hblob, by rw [hblob]; omega⟩

/-- Witness for C10 at a concrete description, identifier and nonce. -/
theorem encrypted_blob_format_witness :
    (List.replicate 12 1).length = 12 ∧
    (encryptDescriptionBlob "hi" "ab" (List.replicate 12 1)).length =
      2 + 2 * ((toUtf8Bytes "hi").length + 28) := by
  refine ⟨by decide, ?_⟩
  exact (encrypted_blob_format "hi" "ab" (List.replicate 12 1) (by decide)
    (by decide)).2.2.1

end ByteCipher
